import Mathlib

/-!
Shallow embedding of `src/entities/boss/easy_stages.rs` (boss stage
behaviors of a scrolling shooter) and proofs of its specified properties.

Machine integers (`i32`) are modelled as `Int` (positions, angles, speeds
stay far from the 32-bit range in every behavior considered here), wall
clock instants and durations as `Nat` milliseconds, and `f32` health
fractions as exact rationals `ℚ`.  Stage mutation is modelled by explicit
state passing: a method that mutates its stage returns the new stage state
alongside its result.  The global `screen_rect()` accessor is modelled as
an explicit `Rect` argument, queried fresh on each call as in the source.
-/

namespace SpaceRust

/-- Modelled from the spec: `Vec2i`, a 2-d integer vector from the
`math` module (positions and points). -/
@[ext]
structure Vec2i where
  x : Int
  y : Int
deriving Repr, DecidableEq

/-- Modelled from the spec: the screen rectangle, given by its top-left
and bottom-right corners (`globals::screen_rect`). -/
structure Rect where
  top_left : Vec2i
  bottom_right : Vec2i
deriving Repr, DecidableEq

/-- Modelled from the spec: `Shape`, the square hitbox used by entities
(`entities::shape`): an anchor (top-left) position and a width; the
height of the square equals its width. -/
structure Shape where
  pos : Vec2i
  width : Int
deriving Repr, DecidableEq

/-- Modelled from the spec: the derived center point of a shape. -/
def Shape.center (s : Shape) : Vec2i :=
  ⟨s.pos.x + s.width / 2, s.pos.y + s.width / 2⟩

/-- Modelled from the spec: `Shape::new(center, width)` builds the square
shape of the given width centered at the given point (shots are spawned
"at the boss's center"). -/
def Shape.new (c : Vec2i) (w : Int) : Shape :=
  ⟨⟨c.x - w / 2, c.y - w / 2⟩, w⟩

/-- Modelled from the spec: `Shape::in_rect` holds when the shape lies
entirely inside the rectangle (a move is rejected when the candidate
shape "would fall fully or partially outside the screen rectangle"). -/
def Shape.in_rect (s : Shape) (r : Rect) : Bool :=
  decide (r.top_left.x ≤ s.pos.x) && decide (s.pos.x + s.width ≤ r.bottom_right.x) &&
  decide (r.top_left.y ≤ s.pos.y) && decide (s.pos.y + s.width ≤ r.bottom_right.y)

/-- Modelled from the spec: the `Boss` collaborator, read by stages
through its shape (position, center, width) and its health fraction. -/
structure Boss where
  shape : Shape
  hp : ℚ
deriving Repr, DecidableEq

/-- Modelled from the spec: `Boss::pos`, the boss's anchor position. -/
def Boss.pos (b : Boss) : Vec2i := b.shape.pos

/-- Modelled from the spec: `Boss::center`, the boss's center point. -/
def Boss.center (b : Boss) : Vec2i := b.shape.center

/-- Modelled from the spec: `Boss::width`. -/
def Boss.width (b : Boss) : Int := b.shape.width

/-- Modelled from the spec: `Boss::hp_percent`, the health fraction in
[0, 1]; the source `f32` is modelled as an exact rational. -/
def Boss.hp_percent (b : Boss) : ℚ := b.hp

/-- Modelled from the spec: the `Ship` collaborator, read only through
its center point. -/
structure Ship where
  shape : Shape
deriving Repr, DecidableEq

/-- Modelled from the spec: `Ship::center`. -/
def Ship.center (s : Ship) : Vec2i := s.shape.center

/-- Modelled from the spec: `Shot::new(shape, speed, angle, damage)`,
a freshly spawned projectile (`entities::shot`). -/
structure Shot where
  shape : Shape
  speed : Int
  angle : Int
  damage : Int
deriving Repr, DecidableEq

/-- Modelled from the spec: `constants::SHOT_WIDTH` (spawn width of a
shot; configuration, value not fixed by this module). -/
def SHOT_WIDTH : Int := 4

/-- Modelled from the spec: `constants::SHOT_SPEED` (default shot travel
speed; configuration, value not fixed by this module). -/
def SHOT_SPEED : Int := 10

/-- Modelled from the spec: the driver applies a stage's returned
position intent to the boss. -/
def Boss.setPos (b : Boss) (p : Vec2i) : Boss :=
  { b with shape := { b.shape with pos := p } }

/-- Rust `i32::clamp(lo, hi)` (requires `lo ≤ hi`, asserted in Rust). -/
def clampI (x lo hi : Int) : Int :=
  if x < lo then lo else if x > hi then hi else x

-- Constants of `easy_stages.rs` (durations in milliseconds).

def APPEAR_MOVE_SPEED : Int := 8
def APPEAR_TARGET_HEIGHT : Int := 50

def SIMPLE_SHOOTING_STAGE_MOVE_SPEED : Int := 12
def SIMPLE_SHOOTING_STAGE_SHOOTING_INTERVAL : Nat := 300

def SPREAD_SHOOTING_STAGE_MOVE_SPEED : Int := 8
def SPREAD_SHOOTING_STAGE_SHOOTING_INTERVAL : Nat := 500
def SPREAD_SHOOTING_ANGLE_RANGE : Int := 120
def SPREAD_SHOOTING_ANGLE_STEP : Nat := 20

def TARGETED_STAGE_MOVE_SPEED : Int := 15
def TARGETED_STAGE_SHOOTING_INTERVAL : Nat := 500

def STAGE_1_FINISH_HP_THRESHOLD : ℚ := 7 / 10
def STAGE_2_FINISH_HP_THRESHOLD : ℚ := 4 / 10

def BOSS_DAMAGE : Int := 10

def ANGLE_DOWN : Int := 180

/-- The two-valued horizontal travel direction of `easy_stages.rs`. -/
inductive Direction where
  | Left
  | Right
deriving Repr, DecidableEq

/-- The direction reversal performed by the bounce helper. -/
def Direction.flip : Direction → Direction
  | .Left => .Right
  | .Right => .Left

/-- The signed x-offset the bounce helper derives from the direction. -/
def xOffset (d : Direction) (move_speed : Int) : Int :=
  match d with
  | .Left => -move_speed
  | .Right => move_speed

/-- `move_horizontally` from `easy_stages.rs`: offset the boss's shape by
the signed speed; if the candidate shape leaves the screen rectangle,
back it out by twice the offset and flip the stored direction.  Returns
the new position and the (possibly flipped) direction. -/
def move_horizontally (dir : Direction) (boss : Boss) (rect : Rect)
    (move_speed : Int) : Vec2i × Direction :=
  let x_offset := xOffset dir move_speed
  let new_shape : Shape :=
    { boss.shape with pos := { boss.shape.pos with x := boss.shape.pos.x + x_offset } }
  if !(new_shape.in_rect rect) then
    ({ new_shape.pos with x := new_shape.pos.x - x_offset * 2 }, dir.flip)
  else
    (new_shape.pos, dir)

/-- `make_boss_shot` from `easy_stages.rs`. -/
def make_boss_shot (boss : Boss) (angle : Int) : Shot :=
  let shot_shape := Shape.new boss.center SHOT_WIDTH
  ⟨shot_shape, SHOT_SPEED, angle, BOSS_DAMAGE⟩

/-- `shoot_down` from `easy_stages.rs`: if at least `shooting_interval`
has elapsed since the stored last-fire instant, stamp the current instant
and emit one shot aimed straight down; otherwise do nothing.  Returns the
optional shots and the new stored last-fire instant. -/
def shoot_down (shoot_time : Nat) (now : Nat) (boss : Boss)
    (shooting_interval : Nat) : Option (List Shot) × Nat :=
  if shoot_time + shooting_interval ≤ now then
    (some [make_boss_shot boss ANGLE_DOWN], now)
  else
    (none, shoot_time)

-- The four stages.  Each stage's mutable fields become an explicit state
-- record; its methods take and return that state.

/-- `AppearStage::completed`: the boss's y-position strictly exceeds the
target height. -/
def AppearStage.completed (boss : Boss) : Bool :=
  decide (boss.pos.y > APPEAR_TARGET_HEIGHT)

/-- `AppearStage::calc_new_pos`: descend at the fixed appear speed until
completed; the ship is ignored. -/
def AppearStage.calc_new_pos (boss : Boss) (_ship : Ship) : Vec2i :=
  let new_pos := boss.pos
  if !(AppearStage.completed boss) then
    { new_pos with y := new_pos.y + APPEAR_MOVE_SPEED }
  else
    new_pos

/-- `AppearStage::shoot`: never fires. -/
def AppearStage.shoot (_boss : Boss) (_ship : Ship) : Option (List Shot) :=
  none

/-- State of `SimpleShootingDown`: a travel direction and the last-fire
instant. -/
structure SimpleShootingDown where
  direction : Direction
  shoot_time : Nat
deriving Repr, DecidableEq

/-- `SimpleShootingDown::calc_new_pos`: bounce horizontally at speed 12. -/
def SimpleShootingDown.calc_new_pos (st : SimpleShootingDown) (boss : Boss)
    (_ship : Ship) (rect : Rect) : Vec2i × SimpleShootingDown :=
  let r := move_horizontally st.direction boss rect SIMPLE_SHOOTING_STAGE_MOVE_SPEED
  (r.1, { st with direction := r.2 })

/-- `SimpleShootingDown::shoot`: fire straight down on the 300 ms cadence. -/
def SimpleShootingDown.shoot (st : SimpleShootingDown) (now : Nat) (boss : Boss)
    (_ship : Ship) : Option (List Shot) × SimpleShootingDown :=
  let r := shoot_down st.shoot_time now boss SIMPLE_SHOOTING_STAGE_SHOOTING_INTERVAL
  (r.1, { st with shoot_time := r.2 })

/-- `SimpleShootingDown::completed`: health fraction below 0.7. -/
def SimpleShootingDown.completed (boss : Boss) : Bool :=
  decide (boss.hp_percent < STAGE_1_FINISH_HP_THRESHOLD)

/-- State of `SpreadShooting`: a travel direction and the last-fire
instant. -/
structure SpreadShooting where
  direction : Direction
  shoot_time : Nat
deriving Repr, DecidableEq

/-- `SpreadShooting::calc_new_pos`: bounce horizontally at speed 8. -/
def SpreadShooting.calc_new_pos (st : SpreadShooting) (boss : Boss)
    (_ship : Ship) (rect : Rect) : Vec2i × SpreadShooting :=
  let r := move_horizontally st.direction boss rect SPREAD_SHOOTING_STAGE_MOVE_SPEED
  (r.1, { st with direction := r.2 })

/-- Rust `(a..=b).step_by(s)` for integers and a positive step: the
values `a, a + s, a + 2s, …` not exceeding `b`. -/
def stepRange (a b : Int) (s : Nat) : List Int :=
  if a ≤ b then
    (List.range ((b - a).toNat / s + 1)).map (fun i => a + (s : Int) * i)
  else
    []

/-- The inclusive stepped angle sequence generated by
`SpreadShooting::shoot`'s loop. -/
def spreadAngles : List Int :=
  stepRange (ANGLE_DOWN - SPREAD_SHOOTING_ANGLE_RANGE / 2)
    (ANGLE_DOWN + SPREAD_SHOOTING_ANGLE_RANGE / 2) SPREAD_SHOOTING_ANGLE_STEP

/-- `SpreadShooting::shoot`: on the 500 ms cadence, fire a fan of shots
at the stepped angles across the configured range centered on down. -/
def SpreadShooting.shoot (st : SpreadShooting) (now : Nat) (boss : Boss)
    (_ship : Ship) : Option (List Shot) × SpreadShooting :=
  if st.shoot_time + SPREAD_SHOOTING_STAGE_SHOOTING_INTERVAL > now then
    (none, st)
  else
    let st' := { st with shoot_time := now }
    let shots := spreadAngles.map (fun shot_angle => make_boss_shot boss shot_angle)
    (some shots, st')

/-- `SpreadShooting::completed`: health fraction below 0.4. -/
def SpreadShooting.completed (boss : Boss) : Bool :=
  decide (boss.hp_percent < STAGE_2_FINISH_HP_THRESHOLD)

/-- State of `Targeted`: only the last-fire instant. -/
structure Targeted where
  shoot_time : Nat
deriving Repr, DecidableEq

/-- The horizontal tracking step of `Targeted::calc_new_pos`, before the
clamp: snap to center over the ship when closer than the move speed,
otherwise add the signed move speed chosen from the sign of
`boss_center.x - ship_center.x`. -/
def Targeted.trackX (boss : Boss) (ship : Ship) : Int :=
  let boss_center := boss.center
  let ship_center := ship.center
  let diff_x := boss_center.x - ship_center.x
  if |diff_x| < TARGETED_STAGE_MOVE_SPEED then
    ship_center.x - boss.width / 2
  else
    boss.pos.x + (if diff_x > 0 then TARGETED_STAGE_MOVE_SPEED else -TARGETED_STAGE_MOVE_SPEED)

/-- `Targeted::calc_new_pos`: the tracking step followed by clamping the
x-coordinate to the screen rectangle's horizontal bounds. -/
def Targeted.calc_new_pos (boss : Boss) (ship : Ship) (rect : Rect) : Vec2i :=
  let result := boss.pos
  { result with x := clampI (Targeted.trackX boss ship) rect.top_left.x rect.bottom_right.x }

/-- `Targeted::shoot`: fire straight down on the 500 ms cadence. -/
def Targeted.shoot (st : Targeted) (now : Nat) (boss : Boss) (_ship : Ship) :
    Option (List Shot) × Targeted :=
  let r := shoot_down st.shoot_time now boss TARGETED_STAGE_SHOOTING_INTERVAL
  (r.1, { st with shoot_time := r.2 })

/-- `Targeted::completed`: hard-coded false. -/
def Targeted.completed (_boss : Boss) : Bool :=
  false

-- Driver-level iteration (modelled from the spec: the driver applies the
-- returned position intent to the boss each tick).

/-- One driver tick of the appear stage: apply the returned position. -/
def appearTick (ship : Ship) (boss : Boss) : Boss :=
  boss.setPos (AppearStage.calc_new_pos boss ship)

/-- `n` driver ticks of the appear stage. -/
def appearIter (ship : Ship) (boss : Boss) : Nat → Boss
  | 0 => boss
  | n + 1 => appearTick ship (appearIter ship boss n)

/-- One driver tick of the bounce motion: apply the returned position and
keep the returned direction. -/
def bounceTick (rect : Rect) (move_speed : Int) (p : Boss × Direction) :
    Boss × Direction :=
  let r := move_horizontally p.2 p.1 rect move_speed
  (p.1.setPos r.1, r.2)

/-- `n` driver ticks of the bounce motion. -/
def bounceIter (rect : Rect) (move_speed : Int) (p : Boss × Direction) :
    Nat → Boss × Direction
  | 0 => p
  | n + 1 => bounceTick rect move_speed (bounceIter rect move_speed p n)

/-- The candidate shape the bounce helper tests against the screen
rectangle: the boss's shape shifted horizontally by the signed offset. -/
def candidateShape (d : Direction) (b : Boss) (move_speed : Int) : Shape :=
  { b.shape with pos := { b.shape.pos with x := b.shape.pos.x + xOffset d move_speed } }

-- Helper lemmas.

lemma in_rect_iff (s : Shape) (r : Rect) :
    s.in_rect r = true ↔
      r.top_left.x ≤ s.pos.x ∧ s.pos.x + s.width ≤ r.bottom_right.x ∧
      r.top_left.y ≤ s.pos.y ∧ s.pos.y + s.width ≤ r.bottom_right.y := by
  simp [Shape.in_rect, and_assoc]

lemma in_rect_eq_false_iff (s : Shape) (r : Rect) :
    s.in_rect r = false ↔
      ¬ (r.top_left.x ≤ s.pos.x ∧ s.pos.x + s.width ≤ r.bottom_right.x ∧
         r.top_left.y ≤ s.pos.y ∧ s.pos.y + s.width ≤ r.bottom_right.y) := by
  rw [← in_rect_iff]
  simp

lemma move_horizontally_eq (d : Direction) (b : Boss) (r : Rect) (m : Int) :
    move_horizontally d b r m =
      if (candidateShape d b m).in_rect r then
        ((candidateShape d b m).pos, d)
      else
        ({ (candidateShape d b m).pos with
            x := (candidateShape d b m).pos.x - xOffset d m * 2 }, d.flip) := by
  simp only [move_horizontally, candidateShape, Bool.not_eq_true']
  rcases h : (candidateShape d b m).in_rect r with _ | _ <;>
    simp_all [candidateShape]

/-- A single bounce step applied to a boss whose shape is inside a screen
rectangle with enough horizontal slack keeps the shape inside. -/
lemma bounce_step_in_rect (d : Direction) (b : Boss) (r : Rect) (m : Int)
    (hm : 0 < m)
    (hslack : b.shape.width + 2 * m - 1 ≤ r.bottom_right.x - r.top_left.x)
    (hin : b.shape.in_rect r = true) :
    (b.setPos (move_horizontally d b r m).1).shape.in_rect r = true := by
  rw [in_rect_iff] at hin
  rw [move_horizontally_eq]
  rcases hc : (candidateShape d b m).in_rect r with _ | _
  · rw [in_rect_eq_false_iff] at hc
    cases d <;>
      · simp [candidateShape, xOffset, Boss.setPos, in_rect_iff] at hc ⊢
        omega
  · rw [in_rect_iff] at hc
    cases d <;>
      · simp [candidateShape, xOffset, Boss.setPos, in_rect_iff] at hc ⊢
        omega

lemma bounce_step_width (rect : Rect) (m : Int) (p : Boss × Direction) :
    (bounceTick rect m p).1.shape.width = p.1.shape.width := by
  simp [bounceTick, Boss.setPos]

lemma bounceIter_width (rect : Rect) (m : Int) (p : Boss × Direction) (n : Nat) :
    (bounceIter rect m p n).1.shape.width = p.1.shape.width := by
  induction n with
  | zero => rfl
  | succ k ih => rw [bounceIter, bounce_step_width, ih]

-- Claim theorems.

/-- C2: starting from a boss whose shape lies inside the screen rectangle
(with the horizontal slack any real screen provides for these speeds),
repeatedly applying the bounce helper never yields a position whose shape
leaves the rectangle; on any single call the stored direction flips
exactly when the candidate shape (current x shifted by the signed speed)
would leave the rectangle, and in that case the returned x is the
candidate's x backed out by twice the signed offset, i.e. the pre-move x
minus the signed offset. -/
theorem bounce_keeps_shape_in_rect (rect : Rect) (m : Int) (b : Boss) (d : Direction)
    (hm : 0 < m)
    (hslack : b.shape.width + 2 * m - 1 ≤ rect.bottom_right.x - rect.top_left.x)
    (hin : b.shape.in_rect rect = true) :
    (∀ n : Nat, (bounceIter rect m (b, d) n).1.shape.in_rect rect = true) ∧
    (∀ (d₀ : Direction) (b₀ : Boss),
      ((move_horizontally d₀ b₀ rect m).2 = d₀.flip ↔
        (candidateShape d₀ b₀ m).in_rect rect = false) ∧
      ((candidateShape d₀ b₀ m).in_rect rect = false →
        (move_horizontally d₀ b₀ rect m).1.x = b₀.shape.pos.x - xOffset d₀ m)) := by
  constructor
  · intro n
    induction n with
    | zero => exact hin
    | succ k ih =>
      have hw := bounceIter_width rect m (b, d) k
      rw [bounceIter]
      exact bounce_step_in_rect _ _ _ _ hm (by rw [hw]; exact hslack) ih
  · intro d₀ b₀
    rw [move_horizontally_eq]
    rcases hc : (candidateShape d₀ b₀ m).in_rect rect with _ | _
    · refine ⟨by simp, fun _ => ?_⟩
      simp only [Bool.false_eq_true, if_false]
      simp [candidateShape]
      ring
    · refine ⟨?_, by simp⟩
      simp only [if_pos rfl]
      cases d₀ <;> simp [Direction.flip]

/-- C2 witness: a concrete in-bounds boss bounced three times stays
inside the screen rectangle. -/
theorem bounce_keeps_shape_in_rect_witness :
    (bounceIter ⟨⟨0, 0⟩, ⟨800, 600⟩⟩ 12 (⟨⟨⟨100, 100⟩, 40⟩, 1⟩, Direction.Right) 3).1.shape.in_rect
      ⟨⟨0, 0⟩, ⟨800, 600⟩⟩ = true :=
  (bounce_keeps_shape_in_rect ⟨⟨0, 0⟩, ⟨800, 600⟩⟩ 12 ⟨⟨⟨100, 100⟩, 40⟩, 1⟩ Direction.Right
    (by decide) (by decide) (by decide)).1 3

/-- C3: the timed shot emitter fires iff now has reached last-fire plus
the interval; on fire it stamps the current time and returns exactly one
shot, otherwise it returns none and keeps its timestamp; two polls a gap
shorter than the interval apart fire at most once between them, and a
gap of at least the interval makes the later poll fire exactly one shot. -/
theorem shoot_down_cadence (s I t₁ t₂ : Nat) (b : Boss)
    (hs : s ≤ t₁) (h12 : t₁ ≤ t₂) :
    (∀ t, s + I ≤ t → shoot_down s t b I = (some [make_boss_shot b ANGLE_DOWN], t)) ∧
    (∀ t, ¬ s + I ≤ t → shoot_down s t b I = (none, s)) ∧
    (t₂ - t₁ < I →
      ¬ ((shoot_down s t₁ b I).1.isSome = true ∧
         (shoot_down (shoot_down s t₁ b I).2 t₂ b I).1.isSome = true)) ∧
    (I ≤ t₂ - t₁ →
      (shoot_down (shoot_down s t₁ b I).2 t₂ b I).1 =
        some [make_boss_shot b ANGLE_DOWN]) := by
  refine ⟨fun t ht => by simp [shoot_down, ht], fun t ht => by simp [shoot_down, ht], ?_, ?_⟩
  · intro hgap
    by_cases h1 : s + I ≤ t₁
    · simp only [shoot_down, if_pos h1]
      have h2 : ¬ t₁ + I ≤ t₂ := by omega
      simp [h2]
    · simp [shoot_down, h1]
  · intro hgap
    by_cases h1 : s + I ≤ t₁
    · simp only [shoot_down, if_pos h1]
      have h2 : t₁ + I ≤ t₂ := by omega
      simp [h2]
    · simp only [shoot_down, if_neg h1]
      have h2 : s + I ≤ t₂ := by omega
      simp [h2]

/-- C3 witness: with last-fire 0 and interval 300, polling at 100 then
400 fires exactly one shot on the later poll. -/
theorem shoot_down_cadence_witness :
    (shoot_down (shoot_down 0 100 ⟨⟨⟨0, 0⟩, 40⟩, 1⟩ 300).2 400 ⟨⟨⟨0, 0⟩, 40⟩, 1⟩ 300).1 =
      some [make_boss_shot ⟨⟨⟨0, 0⟩, 40⟩, 1⟩ ANGLE_DOWN] :=
  (shoot_down_cadence 0 300 100 400 ⟨⟨⟨0, 0⟩, 40⟩, 1⟩ (by decide) (by decide)).2.2.2
    (by decide)

/-- C4: on a fire tick, SpreadShooting emits one shot per angle of the
inclusive stepped sequence from down minus half the range to down plus
half the range; with the configured range 120 and step 20 the angles are
exactly 120, 140, …, 240, the count is range/step + 1 = 7, and the angle
set is symmetric about 180. -/
theorem spread_shoot_fan (st : SpreadShooting) (now : Nat) (b : Boss) (sh : Ship)
    (hfire : st.shoot_time + SPREAD_SHOOTING_STAGE_SHOOTING_INTERVAL ≤ now) :
    (SpreadShooting.shoot st now b sh).1 =
      some (spreadAngles.map (fun a => make_boss_shot b a)) ∧
    spreadAngles = [120, 140, 160, 180, 200, 220, 240] ∧
    (spreadAngles.length : Int) =
      SPREAD_SHOOTING_ANGLE_RANGE / (SPREAD_SHOOTING_ANGLE_STEP : Int) + 1 ∧
    spreadAngles.map (fun a => 2 * ANGLE_DOWN - a) = spreadAngles.reverse := by
  refine ⟨?_, by decide, by decide, by decide⟩
  have h : ¬ st.shoot_time + SPREAD_SHOOTING_STAGE_SHOOTING_INTERVAL > now := by omega
  simp [SpreadShooting.shoot, h]

/-- C4 witness: a concrete fire tick emits the seven-shot fan. -/
theorem spread_shoot_fan_witness :
    (SpreadShooting.shoot ⟨Direction.Right, 0⟩ 500 ⟨⟨⟨0, 0⟩, 40⟩, 1⟩ ⟨⟨⟨0, 0⟩, 20⟩⟩).1 =
      some (spreadAngles.map (fun a => make_boss_shot ⟨⟨⟨0, 0⟩, 40⟩, 1⟩ a)) :=
  (spread_shoot_fan ⟨Direction.Right, 0⟩ 500 ⟨⟨⟨0, 0⟩, 40⟩, 1⟩ ⟨⟨⟨0, 0⟩, 20⟩⟩
    (by decide)).1

/-- C5: SimpleShootingDown.completed holds iff the health fraction is
strictly below 0.7 and SpreadShooting.completed iff it is strictly below
0.4; both are monotone as health decreases, and both depend on the boss
only through its health fraction. -/
theorem completed_thresholds (b b' : Boss) :
    (SimpleShootingDown.completed b = true ↔ b.hp_percent < 7 / 10) ∧
    (SpreadShooting.completed b = true ↔ b.hp_percent < 4 / 10) ∧
    (b'.hp_percent ≤ b.hp_percent → SimpleShootingDown.completed b = true →
      SimpleShootingDown.completed b' = true) ∧
    (b'.hp_percent ≤ b.hp_percent → SpreadShooting.completed b = true →
      SpreadShooting.completed b' = true) ∧
    (b.hp_percent = b'.hp_percent →
      SimpleShootingDown.completed b = SimpleShootingDown.completed b' ∧
      SpreadShooting.completed b = SpreadShooting.completed b') := by
  refine ⟨?_, ?_, ?_, ?_, ?_⟩
  · simp [SimpleShootingDown.completed, STAGE_1_FINISH_HP_THRESHOLD]
  · simp [SpreadShooting.completed, STAGE_2_FINISH_HP_THRESHOLD]
  · intro hle h
    simp only [SimpleShootingDown.completed, decide_eq_true_eq] at h ⊢
    exact lt_of_le_of_lt hle h
  · intro hle h
    simp only [SpreadShooting.completed, decide_eq_true_eq] at h ⊢
    exact lt_of_le_of_lt hle h
  · intro heq
    unfold SimpleShootingDown.completed SpreadShooting.completed
    rw [heq]
    exact ⟨rfl, rfl⟩

/-- C5 witness: a boss at half health has completed the first stage's
threshold, and so has one at quarter health. -/
theorem completed_thresholds_witness :
    SimpleShootingDown.completed ⟨⟨⟨0, 0⟩, 40⟩, 1 / 4⟩ = true :=
  (completed_thresholds ⟨⟨⟨0, 0⟩, 40⟩, 1 / 2⟩ ⟨⟨⟨0, 0⟩, 40⟩, 1 / 4⟩).2.2.1
    (by norm_num [Boss.hp_percent])
    (by norm_num [SimpleShootingDown.completed, STAGE_1_FINISH_HP_THRESHOLD, Boss.hp_percent])

/-- C1: the Targeted stage's step branch moves the boss away from the
ship.  With the ship's center (x = 100) far to the left of the boss's
center (x = 420), the returned x is the boss's x plus the move speed
(400 + 15 = 415): the boss steps right, increasing the horizontal
distance to the ship, where the claim (and the spec's tracking intent,
matching the snap branch of the same function) requires a step toward
the ship. -/
theorem targeted_steps_away_from_ship :
    Targeted.calc_new_pos ⟨⟨⟨400, 0⟩, 40⟩, 1⟩ ⟨⟨⟨90, 700⟩, 20⟩⟩ ⟨⟨0, 0⟩, ⟨800, 600⟩⟩ =
      ⟨415, 0⟩ ∧
    (⟨⟨⟨90, 700⟩, 20⟩⟩ : Ship).center.x < (⟨⟨⟨400, 0⟩, 40⟩, 1⟩ : Boss).center.x ∧
    (415 : Int) = (⟨⟨⟨400, 0⟩, 40⟩, 1⟩ : Boss).pos.x + TARGETED_STAGE_MOVE_SPEED := by
  decide

lemma clampI_bounds (x lo hi : Int) (h : lo ≤ hi) :
    lo ≤ clampI x lo hi ∧ clampI x lo hi ≤ hi := by
  unfold clampI
  split <;> [omega; (split <;> omega)]

/-- C6: for every ship position, the x-coordinate returned by
Targeted.calc_new_pos lies within the screen rectangle's horizontal
bounds. -/
theorem targeted_clamped_in_bounds (b : Boss) (sh : Ship) (r : Rect)
    (h : r.top_left.x ≤ r.bottom_right.x) :
    r.top_left.x ≤ (Targeted.calc_new_pos b sh r).x ∧
    (Targeted.calc_new_pos b sh r).x ≤ r.bottom_right.x := by
  simp only [Targeted.calc_new_pos]
  exact clampI_bounds _ _ _ h

/-- C6 witness: a ship a hundred thousand units off-screen still leaves
the returned x inside [0, 800]. -/
theorem targeted_clamped_in_bounds_witness :
    (0 : Int) ≤ (Targeted.calc_new_pos ⟨⟨⟨400, 0⟩, 40⟩, 1⟩ ⟨⟨⟨100000, 700⟩, 20⟩⟩
        ⟨⟨0, 0⟩, ⟨800, 600⟩⟩).x ∧
    (Targeted.calc_new_pos ⟨⟨⟨400, 0⟩, 40⟩, 1⟩ ⟨⟨⟨100000, 700⟩, 20⟩⟩
        ⟨⟨0, 0⟩, ⟨800, 600⟩⟩).x ≤ 800 :=
  targeted_clamped_in_bounds ⟨⟨⟨400, 0⟩, 40⟩, 1⟩ ⟨⟨⟨100000, 700⟩, 20⟩⟩
    ⟨⟨0, 0⟩, ⟨800, 600⟩⟩ (by decide)

/-- C7: from y = 0 the appear stage gains exactly 8 per tick for the
first seven ticks (y = 8, 16, …, 56), is not completed after ticks 0–6,
becomes completed exactly after tick 7, and never fires. -/
theorem appear_scenario (b : Boss) (sh : Ship) (h0 : b.pos.y = 0) :
    ((appearIter sh b 1).pos.y = 8 ∧ (appearIter sh b 2).pos.y = 16 ∧
     (appearIter sh b 3).pos.y = 24 ∧ (appearIter sh b 4).pos.y = 32 ∧
     (appearIter sh b 5).pos.y = 40 ∧ (appearIter sh b 6).pos.y = 48 ∧
     (appearIter sh b 7).pos.y = 56) ∧
    (AppearStage.completed (appearIter sh b 0) = false ∧
     AppearStage.completed (appearIter sh b 1) = false ∧
     AppearStage.completed (appearIter sh b 2) = false ∧
     AppearStage.completed (appearIter sh b 3) = false ∧
     AppearStage.completed (appearIter sh b 4) = false ∧
     AppearStage.completed (appearIter sh b 5) = false ∧
     AppearStage.completed (appearIter sh b 6) = false) ∧
    AppearStage.completed (appearIter sh b 7) = true ∧
    (∀ (b' : Boss) (s' : Ship), AppearStage.shoot b' s' = none) := by
  have step : ∀ c : Boss, c.pos.y ≤ 50 →
      (appearTick sh c).pos.y = c.pos.y + 8 := by
    intro c hc
    have hnc : AppearStage.completed c = false := by
      simp [AppearStage.completed, APPEAR_TARGET_HEIGHT]
      omega
    simp [appearTick, AppearStage.calc_new_pos, hnc, Boss.setPos, Boss.pos,
      APPEAR_MOVE_SPEED]
  have hy0 : (appearIter sh b 0).pos.y = 0 := h0
  have h1 : (appearIter sh b 1).pos.y = 8 := by
    rw [appearIter, step _ (by omega)]; omega
  have h2 : (appearIter sh b 2).pos.y = 16 := by
    rw [appearIter, step _ (by omega)]; omega
  have h3 : (appearIter sh b 3).pos.y = 24 := by
    rw [appearIter, step _ (by omega)]; omega
  have h4 : (appearIter sh b 4).pos.y = 32 := by
    rw [appearIter, step _ (by omega)]; omega
  have h5 : (appearIter sh b 5).pos.y = 40 := by
    rw [appearIter, step _ (by omega)]; omega
  have h6 : (appearIter sh b 6).pos.y = 48 := by
    rw [appearIter, step _ (by omega)]; omega
  have h7 : (appearIter sh b 7).pos.y = 56 := by
    rw [appearIter, step _ (by omega)]; omega
  refine ⟨⟨h1, h2, h3, h4, h5, h6, h7⟩, ⟨?_, ?_, ?_, ?_, ?_, ?_, ?_⟩, ?_, fun _ _ => rfl⟩
  all_goals simp [AppearStage.completed, APPEAR_TARGET_HEIGHT, hy0, h1, h2,
    h3, h4, h5, h6, h7]

/-- C7 witness: a concrete boss at y = 0 reaches y = 56 and completion on
tick 7. -/
theorem appear_scenario_witness :
    (appearIter ⟨⟨⟨0, 0⟩, 20⟩⟩ ⟨⟨⟨400, 0⟩, 40⟩, 1⟩ 7).pos.y = 56 :=
  (appear_scenario ⟨⟨⟨400, 0⟩, 40⟩, 1⟩ ⟨⟨⟨0, 0⟩, 20⟩⟩ (by decide)).1.2.2.2.2.2.2

/-- C8: every shot built by make_boss_shot is a square of the configured
shot width centered exactly on the boss's center, travels at the
configured shot speed, and carries the fixed boss damage 10; the shots
the timed emitter fires are exactly one shot at angle 180 (straight
down). -/
theorem boss_shot_fields (b : Boss) (a : Int) :
    (make_boss_shot b a).shape.center = b.center ∧
    (make_boss_shot b a).shape.width = SHOT_WIDTH ∧
    (make_boss_shot b a).speed = SHOT_SPEED ∧
    (make_boss_shot b a).damage = BOSS_DAMAGE ∧
    (make_boss_shot b a).angle = a ∧
    (∀ (s now I s' : Nat) (shots : List Shot),
      shoot_down s now b I = (some shots, s') →
      shots = [make_boss_shot b ANGLE_DOWN] ∧
      ∀ sh ∈ shots, sh.angle = ANGLE_DOWN) := by
  refine ⟨?_, rfl, rfl, rfl, rfl, ?_⟩
  · apply Vec2i.ext <;>
      simp [make_boss_shot, Shape.new, Shape.center, Boss.center, SHOT_WIDTH]
  · intro s now I s' shots h
    unfold shoot_down at h
    split at h
    · simp only [Prod.mk.injEq, Option.some.injEq] at h
      obtain ⟨h1, _⟩ := h
      subst h1
      exact ⟨rfl, by simp [make_boss_shot]⟩
    · exact absurd h (by simp)

/-- C8 witness: a concrete fire tick emits the single straight-down shot
with the specified fields. -/
theorem boss_shot_fields_witness :
    (make_boss_shot ⟨⟨⟨400, 0⟩, 40⟩, 1⟩ 90).shape.center =
      (⟨⟨⟨400, 0⟩, 40⟩, 1⟩ : Boss).center ∧
    ([make_boss_shot ⟨⟨⟨400, 0⟩, 40⟩, 1⟩ ANGLE_DOWN] =
        [make_boss_shot ⟨⟨⟨400, 0⟩, 40⟩, 1⟩ ANGLE_DOWN] ∧
      ∀ sh ∈ [make_boss_shot ⟨⟨⟨400, 0⟩, 40⟩, 1⟩ ANGLE_DOWN], sh.angle = ANGLE_DOWN) :=
  ⟨(boss_shot_fields ⟨⟨⟨400, 0⟩, 40⟩, 1⟩ 90).1,
    (boss_shot_fields ⟨⟨⟨400, 0⟩, 40⟩, 1⟩ 90).2.2.2.2.2 0 300 300 300
      [make_boss_shot ⟨⟨⟨400, 0⟩, 40⟩, 1⟩ ANGLE_DOWN] (by decide)⟩

/-- C9: once the boss's y-position exceeds the target height, the appear
stage returns the boss's current position entirely unchanged. -/
theorem appear_completed_pos_unchanged (b : Boss) (sh : Ship)
    (h : AppearStage.completed b = true) :
    AppearStage.calc_new_pos b sh = b.pos := by
  simp [AppearStage.calc_new_pos, h]

/-- C9 witness: a boss at y = 60 is left exactly where it is. -/
theorem appear_completed_pos_unchanged_witness :
    AppearStage.calc_new_pos ⟨⟨⟨400, 60⟩, 40⟩, 1⟩ ⟨⟨⟨0, 0⟩, 20⟩⟩ =
      (⟨⟨⟨400, 60⟩, 40⟩, 1⟩ : Boss).pos :=
  appear_completed_pos_unchanged ⟨⟨⟨400, 60⟩, 40⟩, 1⟩ ⟨⟨⟨0, 0⟩, 20⟩⟩ (by decide)

/-- C10: the Targeted clamp constrains only the anchor x.  With the ship
far to the right (center x = 10000) and the boss close enough to snap,
the returned x equals the rectangle's right bound 800, and the boss's
shape then sticks out past the right edge; by contrast the bounce helper
keeps a whole in-bounds shape inside the rectangle. -/
theorem targeted_clamp_anchor_only :
    Targeted.calc_new_pos ⟨⟨⟨10000, 20⟩, 10⟩, 1⟩ ⟨⟨⟨9990, 500⟩, 20⟩⟩ ⟨⟨0, 0⟩, ⟨800, 600⟩⟩ =
      ⟨800, 20⟩ ∧
    (⟨⟨0, 0⟩, ⟨800, 600⟩⟩ : Rect).bottom_right.x = 800 ∧
    0 < (⟨⟨⟨10000, 20⟩, 10⟩, 1⟩ : Boss).width ∧
    (Boss.setPos ⟨⟨⟨10000, 20⟩, 10⟩, 1⟩
        (Targeted.calc_new_pos ⟨⟨⟨10000, 20⟩, 10⟩, 1⟩ ⟨⟨⟨9990, 500⟩, 20⟩⟩
          ⟨⟨0, 0⟩, ⟨800, 600⟩⟩)).shape.in_rect ⟨⟨0, 0⟩, ⟨800, 600⟩⟩ = false ∧
    (⟨⟨⟨750, 100⟩, 40⟩, 1⟩ : Boss).shape.in_rect ⟨⟨0, 0⟩, ⟨800, 600⟩⟩ = true ∧
    (Boss.setPos ⟨⟨⟨750, 100⟩, 40⟩, 1⟩
        (move_horizontally Direction.Right ⟨⟨⟨750, 100⟩, 40⟩, 1⟩ ⟨⟨0, 0⟩, ⟨800, 600⟩⟩
          12).1).shape.in_rect ⟨⟨0, 0⟩, ⟨800, 600⟩⟩ = true := by
  decide

end SpaceRust
